import Mathlib

/-!
Stock-market relay server: a shallow embedding of `src/main.cpp`.

The program is a single-threaded Boost.Asio event loop (`io_context ioc{1}`, run from
`main` only), so every completion handler runs atomically.  The embedding therefore
models each handler as a pure function from the state it touches to the new state and
the list of operations it issues, and models the event loop as a step function that
picks one completion, applies the transport's own effect (bytes appended to the
buffer, the operation no longer outstanding) and calls the handler.

Outstanding asynchronous operations are kept as counters, so that "at most one is
outstanding" is a property to be proved and not a property of the representation.
-/

namespace StockServer

/-- One octet of a frame or of an HTTP body. -/
abbrev Byte := Fin 256

/-- The second argument of `session::fail(ec, what)`. -/
inductive What
  | accept | read | write | open_ | bind | listen
  deriving DecidableEq, Repr

/-- A line written to `std::cerr` / `std::cout`. -/
inductive LogLine
  /-- `session::fail`: `what: ec.message()`. -/
  | fail (what : What) (ec : Nat)
  /-- "Failed to initialize CURL". -/
  | curl_init_failed
  /-- "Number of sessions: n". -/
  | number_of_sessions (n : Nat)
  /-- "Message sent successfully." -/
  | message_sent
  /-- "Error sending message: ec.message()". -/
  | error_sending (ec : Nat)
  deriving DecidableEq, Repr

/-- Completion handler given to `ws_.async_write`: `session::on_write` (echo cycle) or
the lambda of `session::send` (broadcast). -/
inductive WriteHandler
  | on_write | send_lambda
  deriving DecidableEq, Repr

/-- Operations a session issues on its own `ws_` (and its log lines). -/
inductive SessionOp
  /-- `ws_.set_option(decorator(...))` with the four CORS headers. -/
  | set_option_decorator
  /-- `ws_.async_accept(on_accept)`: the WebSocket handshake. -/
  | async_accept
  /-- `ws_.async_read(buffer_, on_read)`; `buffer` is the content of `buffer_` at the call. -/
  | async_read (buffer : List Byte)
  /-- `ws_.async_write(data, handler)` sent in text mode iff `text` (the value of
  `ws_.text()` at the call). -/
  | async_write (data : List Byte) (text : Bool) (handler : WriteHandler)
  | log (line : LogLine)
  deriving DecidableEq, Repr

/-- The class `session`: `buffer_`, and the part of `ws_` the program depends on: the
outgoing message mode `ws_.text()` (Beast's default is text), `ws_.got_text()` of the
last message read, and the operations outstanding on the stream. -/
structure session where
  buffer_ : List Byte := []
  text : Bool := true
  got_text : Bool := true
  /-- Outstanding `ws_.async_accept`. -/
  accepts : Nat := 0
  /-- Outstanding `ws_.async_read`. -/
  reads : Nat := 0
  /-- Outstanding `ws_.async_write` whose handler is `on_write`. -/
  echo_writes : Nat := 0
  /-- Outstanding `ws_.async_write` whose handler is the lambda of `send`. -/
  send_writes : Nat := 0
  deriving DecidableEq, Repr

/-- `session::fail(ec, what)`: one line on `std::cerr`, nothing else. -/
def session.fail (ec : Nat) (what : What) : List SessionOp :=
  [SessionOp.log (LogLine.fail what ec)]

/-- `session::run()`. -/
def session.run (s : session) : session × List SessionOp :=
  ({ s with accepts := s.accepts + 1 },
    [SessionOp.set_option_decorator, SessionOp.async_accept])

/-- `session::do_read()`. -/
def session.do_read (s : session) : session × List SessionOp :=
  ({ s with reads := s.reads + 1 }, [SessionOp.async_read s.buffer_])

/-- `session::on_accept(ec)`. -/
def session.on_accept (s : session) (ec : Nat) : session × List SessionOp :=
  if ec ≠ 0 then (s, session.fail ec What.accept)
  else s.do_read

/-- `session::on_read(ec, bytes_transferred)`: `ws_.text(ws_.got_text())`, then
`ws_.async_write(buffer_.data(), on_write)`. -/
def session.on_read (s : session) (ec : Nat) : session × List SessionOp :=
  if ec ≠ 0 then (s, session.fail ec What.read)
  else
    let s1 := { s with text := s.got_text }
    ({ s1 with echo_writes := s1.echo_writes + 1 },
      [SessionOp.async_write s1.buffer_ s1.text WriteHandler.on_write])

/-- `session::on_write(ec, bytes_transferred)`: `buffer_.consume(buffer_.size())`, then
`do_read()`. -/
def session.on_write (s : session) (ec : Nat) : session × List SessionOp :=
  if ec ≠ 0 then (s, session.fail ec What.write)
  else
    let s1 := { s with buffer_ := s.buffer_.drop s.buffer_.length }
    s1.do_read

/-- `session::send(message)`: an unconditional `ws_.async_write`. -/
def session.send (s : session) (message : List Byte) : session × List SessionOp :=
  ({ s with send_writes := s.send_writes + 1 },
    [SessionOp.async_write message s.text WriteHandler.send_lambda])

/-- The completion lambda of `session::send`: it only logs. -/
def session.send_lambda (s : session) (ec : Nat) : session × List SessionOp :=
  if ec = 0 then (s, [SessionOp.log LogLine.message_sent])
  else (s, [SessionOp.log (LogLine.error_sending ec)])

/-- What the event loop can deliver to one session: the completion of an outstanding
operation (with its error code; a read also delivers the bytes it appended to the
buffer and the text/binary flag of the message), or a call of `send` by the
broadcaster. -/
inductive SessionEvent
  | accept_done (ec : Nat)
  | read_done (ec : Nat) (bytes : List Byte) (is_text : Bool)
  | write_done (ec : Nat)
  | send (message : List Byte)
  | send_done (ec : Nat)
  deriving DecidableEq, Repr

/-- One event on one session.  A completion is possible only when the operation is
outstanding; it stops being outstanding and its handler runs. -/
def session.step (s : session) : SessionEvent → Option (session × List SessionOp)
  | SessionEvent.accept_done ec =>
    if s.accepts = 0 then none
    else some (session.on_accept { s with accepts := s.accepts - 1 } ec)
  | SessionEvent.read_done ec bytes is_text =>
    if s.reads = 0 then none
    else some (session.on_read
      { s with reads := s.reads - 1, buffer_ := s.buffer_ ++ bytes, got_text := is_text } ec)
  | SessionEvent.write_done ec =>
    if s.echo_writes = 0 then none
    else some (session.on_write { s with echo_writes := s.echo_writes - 1 } ec)
  | SessionEvent.send message => some (s.send message)
  | SessionEvent.send_done ec =>
    if s.send_writes = 0 then none
    else some (session.send_lambda { s with send_writes := s.send_writes - 1 } ec)

/-- A sequence of events on one session; the result keeps the operations issued by each
event, in order, one list per event. -/
def session.exec (s : session) : List SessionEvent → Option (session × List (List SessionOp))
  | [] => some (s, [])
  | e :: es =>
    match s.step e with
    | none => none
    | some (s1, ops) =>
      match s1.exec es with
      | none => none
      | some (s2, tr) => some (s2, ops :: tr)

/-- A session as `listener::on_accept` leaves it: constructed, then `run()`. -/
def session.started : session := (session.run {}).1

/-! ## The fetcher: libcurl and `WriteCallback` -/

/-- One call of the write callback by libcurl: the memory behind `contents`, and the
arguments `size` and `nmemb`. -/
structure Chunk where
  contents : List Byte
  size : Nat
  nmemb : Nat
  deriving DecidableEq, Repr

/-- Number of values of `size_t`. -/
def SIZE_MOD : Nat := 2 ^ 64

/-- `WriteCallback(contents, size, nmemb, userp)`: appends `size * nmemb` bytes read at
`contents` to the string behind `userp` and returns `size * nmemb` (a `size_t`
product).  Result: the new string and the returned count. -/
def WriteCallback (c : Chunk) (userp : List Byte) : List Byte × Nat :=
  (userp ++ c.contents.take (c.size * c.nmemb % SIZE_MOD), c.size * c.nmemb % SIZE_MOD)

/-- `CURLE_WRITE_ERROR`. -/
def CURLE_WRITE_ERROR : Nat := 23

/-- The transfer done by `curl_easy_perform(curl)` as the program sees it: libcurl hands
the body to the write callback chunk by chunk, aborts with `CURLE_WRITE_ERROR` if the
callback returns another count than the one it was given, and otherwise ends with its
own result `res` (0 is `CURLE_OK`).  Result: `readBuffer` and the `CURLcode`. -/
def curl_easy_perform (res : Nat) : List Chunk → List Byte → List Byte × Nat
  | [], readBuffer => (readBuffer, res)
  | c :: cs, readBuffer =>
    if (WriteCallback c readBuffer).2 = c.size * c.nmemb then
      curl_easy_perform res cs (WriteCallback c readBuffer).1
    else ((WriteCallback c readBuffer).1, CURLE_WRITE_ERROR)

/-- What libcurl does during one tick: `curl_easy_init()` returns no handle, or it
returns one and the transfer delivers `chunks` and ends with `res`. -/
inductive CurlRun
  | init_failed
  | handle (chunks : List Chunk) (res : Nat)
  deriving DecidableEq, Repr

/-! ## Operations of the whole program -/

/-- Operations issued by the server, the listener and `main`; `on_session s op` is an
operation of the session behind pointer `s`, `send s message` is the call
`s->send(message)`. -/
inductive Op
  | log (line : LogLine)
  | on_session (s : Nat) (op : SessionOp)
  | send (s : Nat) (message : List Byte)
  | acceptor_open
  | acceptor_bind
  | acceptor_listen
  | acceptor_async_accept
  /-- `poll_timer_.expires_after(d)`. -/
  | timer_expires_after (d : Nat)
  /-- `poll_timer_.async_wait(...)`. -/
  | timer_async_wait
  | curl_easy_init
  | curl_easy_perform
  | curl_easy_cleanup
  /-- `ioc.run()`: control passes to the event loop. -/
  | ioc_run
  deriving DecidableEq, Repr

/-- `boost::asio::chrono::seconds(n)` in ticks of the steady clock (nanoseconds). -/
def seconds (n : Nat) : Nat := n * 1000000000

/-- The class `WebSocketServer`: the registry `sessions_` (a vector of shared pointers;
a pointer is the index of the session among the sessions created so far) and
`poll_timer_` (its expiry on the steady clock and its outstanding waits). -/
structure WebSocketServer where
  sessions_ : List Nat := []
  poll_timer_expiry : Nat := 0
  poll_timer_waits : Nat := 0
  deriving DecidableEq, Repr

/-- `WebSocketServer::add_session(new_session)`: `sessions_.push_back(new_session)`. -/
def WebSocketServer.add_session (srv : WebSocketServer) (new_session : Nat) :
    WebSocketServer :=
  { srv with sessions_ := srv.sessions_ ++ [new_session] }

/-- `WebSocketServer::start_polling()` called when the steady clock shows `now`:
`expires_after(seconds(10))` sets the expiry relative to the time of the call, then
`async_wait`.  At both call sites (the constructor, and the wait handler whose own
wait has just completed) no wait is outstanding, so `expires_after` cancels none. -/
def WebSocketServer.start_polling (srv : WebSocketServer) (now : Nat) :
    WebSocketServer × List Op :=
  ({ srv with poll_timer_expiry := now + seconds 10,
              poll_timer_waits := srv.poll_timer_waits + 1 },
    [Op.timer_expires_after (seconds 10), Op.timer_async_wait])

/-- The constructor `WebSocketServer(ioc)` run at time `now`: `poll_timer_(ioc,
seconds(10))`, then `start_polling()`. -/
def WebSocketServer.new (now : Nat) : WebSocketServer × List Op :=
  WebSocketServer.start_polling { poll_timer_expiry := now + seconds 10 } now

/-- `WebSocketServer::fetch_and_broadcast_stock_data()`.  The result of
`curl_easy_perform` is stored in `res` and not read again; the three
`curl_easy_setopt` calls configure the handle and are not listed as operations. -/
def WebSocketServer.fetch_and_broadcast_stock_data (srv : WebSocketServer) :
    CurlRun → List Op
  | CurlRun.init_failed => [Op.curl_easy_init, Op.log LogLine.curl_init_failed]
  | CurlRun.handle chunks res =>
    let readBuffer := (curl_easy_perform res chunks []).1
    [Op.curl_easy_init, Op.curl_easy_perform, Op.curl_easy_cleanup,
      Op.log (LogLine.number_of_sessions srv.sessions_.length)]
      ++ srv.sessions_.map (fun s => Op.send s readBuffer)

/-- The lambda given to `poll_timer_.async_wait` in `start_polling`, run when the clock
shows `now`; the blocking call `fetch_and_broadcast_stock_data()` takes `elapsed`
ticks of the clock. -/
def WebSocketServer.on_wait (srv : WebSocketServer) (ec now : Nat) (curl : CurlRun)
    (elapsed : Nat) : WebSocketServer × List Op :=
  if ec = 0 then
    let ops1 := srv.fetch_and_broadcast_stock_data curl
    let r := srv.start_polling (now + elapsed)
    (r.1, ops1 ++ r.2)
  else (srv, [])

/-! ## The listener and `main` -/

/-- The class `listener`: the state of `acceptor_` and its outstanding accepts. -/
structure listener where
  is_open : Bool := false
  is_bound : Bool := false
  is_listening : Bool := false
  accepts : Nat := 0
  deriving DecidableEq, Repr

/-- Error codes returned by `acceptor_.open`, `acceptor_.bind` and `acceptor_.listen`
at startup (0 is success; a call that is not reached returns nothing). -/
structure StartupEnv where
  open_ec : Nat
  bind_ec : Nat
  listen_ec : Nat
  deriving DecidableEq, Repr

/-- The constructor `listener(ioc, endpoint, server)`: each failing step logs and
returns from the constructor. -/
def listener.new (env : StartupEnv) : listener × List Op :=
  if env.open_ec ≠ 0 then
    ({}, [Op.acceptor_open, Op.log (LogLine.fail What.open_ env.open_ec)])
  else if env.bind_ec ≠ 0 then
    ({ is_open := true },
      [Op.acceptor_open, Op.acceptor_bind, Op.log (LogLine.fail What.bind env.bind_ec)])
  else if env.listen_ec ≠ 0 then
    ({ is_open := true, is_bound := true },
      [Op.acceptor_open, Op.acceptor_bind, Op.acceptor_listen,
        Op.log (LogLine.fail What.listen env.listen_ec)])
  else
    ({ is_open := true, is_bound := true, is_listening := true },
      [Op.acceptor_open, Op.acceptor_bind, Op.acceptor_listen])

/-- `listener::do_accept()`. -/
def listener.do_accept (l : listener) : listener × List Op :=
  ({ l with accepts := l.accepts + 1 }, [Op.acceptor_async_accept])

/-- `listener::run()`. -/
def listener.run (l : listener) : listener × List Op := l.do_accept

/-- The whole program state: the server, the listener and the sessions created so far
by `std::make_shared<session>` (a shared pointer is an index in `heap`). -/
structure System where
  server : WebSocketServer := {}
  lis : listener := {}
  heap : List session := []
  deriving DecidableEq, Repr

/-- `listener::on_accept(ec)`. -/
def listener.on_accept (sys : System) (ec : Nat) : System × List Op :=
  if ec ≠ 0 then
    let r := sys.lis.do_accept
    ({ sys with lis := r.1 }, Op.log (LogLine.fail What.accept ec) :: r.2)
  else
    let ws_session := sys.heap.length
    let started := session.run {}
    let server := sys.server.add_session ws_session
    let r := sys.lis.do_accept
    ({ server := server, lis := r.1, heap := sys.heap ++ [started.1] },
      started.2.map (Op.on_session ws_session) ++ r.2)

/-- The function `main` up to and including the call `ioc.run()`, started when the clock
shows `now`.  No call on this path throws (the acceptor calls take an `error_code`),
so the `catch` block is not entered. -/
def main (env : StartupEnv) (now : Nat) : System × List Op :=
  let server := WebSocketServer.new now
  let l0 := listener.new env
  let l1 := l0.1.run
  ({ server := server.1, lis := l1.1, heap := [] },
    server.2 ++ l0.2 ++ l1.2 ++ [Op.ioc_run])

/-! ## The event loop -/

/-- Completions the event loop dispatches: an accept on the listener, an operation of
the session behind pointer `s`, or the wait on `poll_timer_` (with the clock value
and what the fetch of that tick will meet). -/
inductive Event
  | accept_done (ec : Nat)
  | on_session (s : Nat) (e : SessionEvent)
  | wait_done (ec now : Nat) (curl : CurlRun) (elapsed : Nat)
  deriving DecidableEq, Repr

/-- Executes the calls `s->send(message)` listed in `ops` on the sessions in `heap`, in
order; each call is followed in the result by the operations it issued. -/
def deliver (heap : List session) : List Op → List session × List Op
  | [] => (heap, [])
  | Op.send s message :: rest =>
    match heap[s]? with
    | none => ((deliver heap rest).1, Op.send s message :: (deliver heap rest).2)
    | some st =>
      let r := deliver (heap.set s (st.send message).1) rest
      (r.1, Op.send s message :: ((st.send message).2.map (Op.on_session s) ++ r.2))
  | op :: rest => ((deliver heap rest).1, op :: (deliver heap rest).2)

/-- One dispatch of the event loop.  A completion needs its operation outstanding; a
wait on the timer completes without error no earlier than the expiry; `send` is a
call made by the broadcaster, not a completion. -/
def System.step (sys : System) : Event → Option (System × List Op)
  | Event.accept_done ec =>
    if sys.lis.accepts = 0 then none
    else some (listener.on_accept
      { sys with lis := { sys.lis with accepts := sys.lis.accepts - 1 } } ec)
  | Event.on_session _ (SessionEvent.send _) => none
  | Event.on_session s e =>
    match sys.heap[s]? with
    | none => none
    | some st =>
      match st.step e with
      | none => none
      | some (st1, ops) =>
        some ({ sys with heap := sys.heap.set s st1 }, ops.map (Op.on_session s))
  | Event.wait_done ec now curl elapsed =>
    if sys.server.poll_timer_waits = 0 then none
    else if ec = 0 ∧ now < sys.server.poll_timer_expiry then none
    else
      let r := WebSocketServer.on_wait
        { sys.server with poll_timer_waits := sys.server.poll_timer_waits - 1 }
        ec now curl elapsed
      let d := deliver sys.heap r.2
      some ({ sys with server := r.1, heap := d.1 }, d.2)

/-- A sequence of dispatches; the operations of all of them, in order. -/
def System.exec (sys : System) : List Event → Option (System × List Op)
  | [] => some (sys, [])
  | e :: es =>
    match sys.step e with
    | none => none
    | some (sys1, ops) =>
      match sys1.exec es with
      | none => none
      | some (sys2, tr) => some (sys2, ops ++ tr)

/-- The calls `s->send(message)` among `ops`, in order. -/
def sends : List Op → List (Nat × List Byte)
  | [] => []
  | Op.send s message :: rest => (s, message) :: sends rest
  | _ :: rest => sends rest

/-- An operation on `poll_timer_`. -/
def Op.is_timer_op : Op → Bool
  | Op.timer_expires_after _ => true
  | Op.timer_async_wait => true
  | _ => false

/-- The frame a successful read completion delivers: its bytes and its text flag. -/
def SessionEvent.frame : SessionEvent → Option (List Byte × Bool)
  | SessionEvent.read_done 0 bytes is_text => some (bytes, is_text)
  | _ => none

/-- The message of a call of `send`. -/
def SessionEvent.message : SessionEvent → Option (List Byte)
  | SessionEvent.send m => some m
  | _ => none

/-- A handshake, read or echo write that completes with an error. -/
def SessionEvent.is_failure : SessionEvent → Bool
  | SessionEvent.accept_done ec => ec != 0
  | SessionEvent.read_done ec _ _ => ec != 0
  | SessionEvent.write_done ec => ec != 0
  | _ => false

/-- The completion of a write issued by `send`. -/
def SessionEvent.is_send_done : SessionEvent → Bool
  | SessionEvent.send_done _ => true
  | _ => false

/-- Bytes and text flag of a write issued by the echo cycle (handler `on_write`). -/
def SessionOp.echo : SessionOp → Option (List Byte × Bool)
  | SessionOp.async_write data text WriteHandler.on_write => some (data, text)
  | _ => none

/-- Bytes of a write issued by `send` (handler: the lambda of `send`). -/
def SessionOp.broadcast : SessionOp → Option (List Byte)
  | SessionOp.async_write data _ WriteHandler.send_lambda => some data
  | _ => none

/-- An operation of the session's own cycle: the handshake, a read, or an echo write. -/
def SessionOp.is_cycle_op : SessionOp → Bool
  | SessionOp.async_accept => true
  | SessionOp.async_read _ => true
  | SessionOp.async_write _ _ WriteHandler.on_write => true
  | _ => false

/-- The states of the session's life as the specification names them. -/
inductive Phase
  | Handshaking | Open | Closed
  deriving DecidableEq, Repr

/-- Position of a phase in `Handshaking → Open → Closed`. -/
def Phase.rank : Phase → Nat
  | Phase.Handshaking => 0
  | Phase.Open => 1
  | Phase.Closed => 2

/-- The phase of a session, read off the operations of its cycle that are
outstanding: the handshake; a read or an echo write; none. -/
def session.phase (s : session) : Phase :=
  if 0 < s.accepts then Phase.Handshaking
  else if 0 < s.reads + s.echo_writes then Phase.Open
  else Phase.Closed

/-- Invariant of the session's own cycle: at most one of handshake, read and echo write
is outstanding, and `buffer_` is empty while a handshake or a read is outstanding. -/
def session.cycle_inv (s : session) : Prop :=
  s.accepts + s.reads + s.echo_writes ≤ 1 ∧ (0 < s.accepts + s.reads → s.buffer_ = [])

/-- The events of a client whose frames are all read and echoed without error: the
handshake succeeds, then each frame is read and its echo write completes. -/
def echo_events (frames : List (List Byte × Bool)) : List SessionEvent :=
  SessionEvent.accept_done 0 ::
    frames.flatMap (fun f => [SessionEvent.read_done 0 f.1 f.2, SessionEvent.write_done 0])

/-! ## Lemmas on the fetcher -/

theorem sends_append (xs ys : List Op) : sends (xs ++ ys) = sends xs ++ sends ys := by
  induction xs with
  | nil => rfl
  | cons x xs ih => cases x <;> simp [sends, ih]

theorem sends_map_send (l : List Nat) (m : List Byte) :
    sends (l.map (fun s => Op.send s m)) = l.map (fun s => (s, m)) := by
  induction l with
  | nil => rfl
  | cons x xs ih => simp [sends, ih]

theorem curl_easy_perform_accepts_all (res : Nat) (chunks : List Chunk) (buf : List Byte)
    (hwf : ∀ c ∈ chunks, c.contents.length = c.size * c.nmemb ∧ c.size * c.nmemb < SIZE_MOD) :
    curl_easy_perform res chunks buf = (buf ++ (chunks.map Chunk.contents).flatten, res) := by
  induction chunks generalizing buf with
  | nil => simp [curl_easy_perform]
  | cons c cs ih =>
    have hc := hwf c (List.mem_cons_self c cs)
    have hmod : c.size * c.nmemb % SIZE_MOD = c.size * c.nmemb := Nat.mod_eq_of_lt hc.2
    have htake : c.contents.take (c.size * c.nmemb) = c.contents := by
      rw [← hc.1]; exact List.take_length c.contents
    have ih2 := ih (buf ++ c.contents) (fun d hd => hwf d (List.mem_cons_of_mem c hd))
    simp [curl_easy_perform, WriteCallback, hmod, htake, ih2]

/-! ## Lemmas on one session -/

theorem started_cycle_inv : session.started.cycle_inv := by
  simp [session.started, session.run, session.cycle_inv]

/-- What one event does to a session that satisfies the cycle invariant. -/
theorem step_cycle_inv {s s1 : session} {e : SessionEvent} {ops : List SessionOp}
    (hJ : s.cycle_inv) (h : s.step e = some (s1, ops)) :
    s1.cycle_inv
    ∧ (∀ buf, SessionOp.async_read buf ∈ ops → buf = [])
    ∧ ops.filterMap SessionOp.echo = e.frame.toList
    ∧ ops.filterMap SessionOp.broadcast = e.message.toList
    ∧ s1.send_writes + [e].countP SessionEvent.is_send_done
        = s.send_writes + e.message.toList.length := by
  obtain ⟨h1, h2⟩ := hJ
  cases e with
  | accept_done ec =>
    by_cases h0 : s.accepts = 0
    · simp [session.step, h0] at h
    · by_cases hec : ec = 0
      · simp [session.step, h0, session.on_accept, hec, session.do_read] at h
        obtain ⟨rfl, rfl⟩ := h
        have hb : s.buffer_ = [] := h2 (by omega)
        simp [session.cycle_inv, SessionOp.echo, SessionOp.broadcast, SessionEvent.frame,
          SessionEvent.message, SessionEvent.is_send_done, hb]
        omega
      · simp [session.step, h0, session.on_accept, hec, session.fail] at h
        obtain ⟨rfl, rfl⟩ := h
        simp [session.cycle_inv, SessionOp.echo, SessionOp.broadcast, SessionEvent.frame,
          SessionEvent.message, SessionEvent.is_send_done]
        constructor
        · omega
        · intro h3; exact absurd h3 (by omega)
  | read_done ec bytes is_text =>
    by_cases h0 : s.reads = 0
    · simp [session.step, h0] at h
    · have hb : s.buffer_ = [] := h2 (by omega)
      by_cases hec : ec = 0
      · subst hec
        simp [session.step, h0, session.on_read] at h
        obtain ⟨rfl, rfl⟩ := h
        simp [session.cycle_inv, SessionOp.echo, SessionOp.broadcast, SessionEvent.frame,
          SessionEvent.message, SessionEvent.is_send_done, hb]
        constructor
        · omega
        · intro h3; exact absurd h3 (by omega)
      · simp [session.step, h0, session.on_read, hec, session.fail] at h
        obtain ⟨rfl, rfl⟩ := h
        have hfr : (SessionEvent.read_done ec bytes is_text).frame = none := by
          cases ec with
          | zero => exact absurd rfl hec
          | succ n => rfl
        simp [session.cycle_inv, SessionOp.echo, SessionOp.broadcast, hfr,
          SessionEvent.message, SessionEvent.is_send_done]
        constructor
        · omega
        · intro h3; exact absurd h3 (by omega)
  | write_done ec =>
    by_cases h0 : s.echo_writes = 0
    · simp [session.step, h0] at h
    · by_cases hec : ec = 0
      · simp [session.step, h0, session.on_write, hec, session.do_read] at h
        obtain ⟨rfl, rfl⟩ := h
        simp [session.cycle_inv, SessionOp.echo, SessionOp.broadcast, SessionEvent.frame,
          SessionEvent.message, SessionEvent.is_send_done]
        omega
      · simp [session.step, h0, session.on_write, hec, session.fail] at h
        obtain ⟨rfl, rfl⟩ := h
        simp [session.cycle_inv, SessionOp.echo, SessionOp.broadcast, SessionEvent.frame,
          SessionEvent.message, SessionEvent.is_send_done]
        constructor
        · omega
        · intro h3; exact absurd h3 (by omega)
  | send m =>
    simp [session.step, session.send] at h
    obtain ⟨rfl, rfl⟩ := h
    simp [session.cycle_inv, SessionOp.echo, SessionOp.broadcast, SessionEvent.frame,
      SessionEvent.message, SessionEvent.is_send_done]
    exact ⟨h1, fun h3 => h2 (by rcases h3 with h3 | h3 <;> omega)⟩
  | send_done ec =>
    by_cases h0 : s.send_writes = 0
    · simp [session.step, h0] at h
    · by_cases hec : ec = 0
      · simp [session.step, h0, session.send_lambda, hec] at h
        obtain ⟨rfl, rfl⟩ := h
        simp [session.cycle_inv, SessionOp.echo, SessionOp.broadcast, SessionEvent.frame,
          SessionEvent.message, SessionEvent.is_send_done]
        exact ⟨⟨h1, fun h3 => h2 (by rcases h3 with h3 | h3 <;> omega)⟩, by omega⟩
      · simp [session.step, h0, session.send_lambda, hec] at h
        obtain ⟨rfl, rfl⟩ := h
        simp [session.cycle_inv, SessionOp.echo, SessionOp.broadcast, SessionEvent.frame,
          SessionEvent.message, SessionEvent.is_send_done]
        exact ⟨⟨h1, fun h3 => h2 (by rcases h3 with h3 | h3 <;> omega)⟩, by omega⟩

/-- A successful read completion issues exactly the echo of the frame just read. -/
theorem step_read_done {s s1 : session} {bytes : List Byte} {is_text : Bool}
    {ops : List SessionOp} (hJ : s.cycle_inv)
    (h : s.step (SessionEvent.read_done 0 bytes is_text) = some (s1, ops)) :
    ops = [SessionOp.async_write bytes is_text WriteHandler.on_write] := by
  by_cases h0 : s.reads = 0
  · simp [session.step, h0] at h
  · have hb : s.buffer_ = [] := hJ.2 (by omega)
    simp [session.step, h0, session.on_read] at h
    rw [← h.2, hb, List.nil_append]

theorem exec_cons {s s2 : session} {e : SessionEvent} {es : List SessionEvent}
    {tr : List (List SessionOp)} (h : s.exec (e :: es) = some (s2, tr)) :
    ∃ s1 ops tr1, s.step e = some (s1, ops) ∧ s1.exec es = some (s2, tr1) ∧ tr = ops :: tr1 := by
  simp only [session.exec] at h
  cases hs : s.step e with
  | none => simp [hs] at h
  | some r =>
    obtain ⟨s1, ops⟩ := r
    simp only [hs] at h
    cases hx : s1.exec es with
    | none => simp [hx] at h
    | some r2 =>
      obtain ⟨s3, tr1⟩ := r2
      simp only [hx, Option.some.injEq, Prod.mk.injEq] at h
      exact ⟨s1, ops, tr1, rfl, by rw [← h.1]; exact hx, h.2.symm⟩

/-- The cycle invariant along a sequence of events, and what the sequence issues. -/
theorem exec_cycle_inv {evs : List SessionEvent} {s s2 : session}
    {tr : List (List SessionOp)} (hJ : s.cycle_inv) (h : s.exec evs = some (s2, tr)) :
    s2.cycle_inv
    ∧ (∀ ops ∈ tr, ∀ buf, SessionOp.async_read buf ∈ ops → buf = [])
    ∧ tr.flatten.filterMap SessionOp.echo = evs.filterMap SessionEvent.frame
    ∧ tr.flatten.filterMap SessionOp.broadcast = evs.filterMap SessionEvent.message
    ∧ s2.send_writes + evs.countP SessionEvent.is_send_done
        = s.send_writes + (evs.filterMap SessionEvent.message).length
    ∧ (∀ (k : Nat) bytes is_text, evs[k]? = some (SessionEvent.read_done 0 bytes is_text) →
        tr[k]? = some [SessionOp.async_write bytes is_text WriteHandler.on_write]) := by
  induction evs generalizing s tr with
  | nil =>
    simp [session.exec] at h
    obtain ⟨rfl, rfl⟩ := h
    simp [hJ]
  | cons e es ih =>
    obtain ⟨s1, ops, tr1, hs, hx, rfl⟩ := exec_cons h
    obtain ⟨hJ1, hrd, hecho, hbc, hcnt⟩ := step_cycle_inv hJ hs
    obtain ⟨iJ, ird, iecho, ibc, icnt, ik⟩ := ih hJ1 hx
    refine ⟨iJ, ?_, ?_, ?_, ?_, ?_⟩
    · intro o ho buf hbuf
      rcases List.mem_cons.1 ho with rfl | ho
      · exact hrd buf hbuf
      · exact ird o ho buf hbuf
    · rw [List.flatten_cons, List.filterMap_append, hecho, iecho]
      cases hf : e.frame <;> simp [List.filterMap_cons, hf]
    · rw [List.flatten_cons, List.filterMap_append, hbc, ibc]
      cases hf : e.message <;> simp [List.filterMap_cons, hf]
    · have hc : (e :: es).countP SessionEvent.is_send_done
          = [e].countP SessionEvent.is_send_done + es.countP SessionEvent.is_send_done := by
        rw [← List.countP_append]; rfl
      have hl : ((e :: es).filterMap SessionEvent.message).length
          = e.message.toList.length + (es.filterMap SessionEvent.message).length := by
        cases hf : e.message <;> simp [List.filterMap_cons, hf]; omega
      omega
    · intro k bytes is_text hk
      cases k with
      | zero =>
        simp at hk
        subst hk
        simp [step_read_done hJ hs]
      | succ n =>
        simp at hk
        simpa using ik n bytes is_text hk

/-- The echo cycle of a session with one read outstanding and an empty buffer, run on
the given frames. -/
theorem exec_echo_frames (frames : List (List Byte × Bool)) (s : session)
    (hr : s.reads = 1) (hb : s.buffer_ = []) :
    ∃ s2, s.exec (frames.flatMap
        (fun f => [SessionEvent.read_done 0 f.1 f.2, SessionEvent.write_done 0]))
      = some (s2, frames.flatMap (fun f =>
          [[SessionOp.async_write f.1 f.2 WriteHandler.on_write], [SessionOp.async_read []]]))
      ∧ s2.reads = 1 ∧ s2.buffer_ = [] := by
  induction frames generalizing s with
  | nil => exact ⟨s, by simp [session.exec], hr, hb⟩
  | cons f fs ih =>
    obtain ⟨s2, h2, hr2, hb2⟩ := ih
      { s with buffer_ := [], text := f.2, got_text := f.2, reads := 1 } rfl rfl
    refine ⟨s2, ?_, hr2, hb2⟩
    have e1 : (f :: fs).flatMap
          (fun f => [SessionEvent.read_done 0 f.1 f.2, SessionEvent.write_done 0])
        = SessionEvent.read_done 0 f.1 f.2 :: SessionEvent.write_done 0 :: fs.flatMap
          (fun f => [SessionEvent.read_done 0 f.1 f.2, SessionEvent.write_done 0]) := rfl
    have e2 : (f :: fs).flatMap (fun f =>
          [[SessionOp.async_write f.1 f.2 WriteHandler.on_write], [SessionOp.async_read []]])
        = [SessionOp.async_write f.1 f.2 WriteHandler.on_write] :: [SessionOp.async_read []]
          :: fs.flatMap (fun f =>
          [[SessionOp.async_write f.1 f.2 WriteHandler.on_write], [SessionOp.async_read []]]) :=
      rfl
    rw [e1, e2]
    simp only [session.exec, session.step, hr, hb, session.on_read, session.on_write,
      session.do_read]
    simp only [one_ne_zero, if_false, Nat.sub_self, Nat.zero_add, Nat.add_sub_cancel,
      Nat.succ_ne_zero, List.drop_length, ne_eq, not_true_eq_false, Nat.add_eq_zero, and_false,
      List.nil_append]
    rw [h2]

theorem exec_append {evs : List SessionEvent} {e : SessionEvent} {s s2 : session}
    {tr : List (List SessionOp)} (h : s.exec (evs ++ [e]) = some (s2, tr)) :
    ∃ s1 tr1 ops, s.exec evs = some (s1, tr1) ∧ s1.step e = some (s2, ops) := by
  induction evs generalizing s tr with
  | nil =>
    obtain ⟨s1, ops, tr1, hs, hx, _⟩ := exec_cons h
    simp [session.exec] at hx
    exact ⟨s, [], ops, rfl, by rw [hs, hx.1]⟩
  | cons a as ih =>
    obtain ⟨s1, ops, tr1, hs, hx, _⟩ := exec_cons h
    obtain ⟨s3, tr3, ops3, h3, h4⟩ := ih hx
    exact ⟨s3, ops :: tr3, ops3, by simp [session.exec, hs, h3], h4⟩

theorem rank_eq_two {p : Phase} (h : 2 ≤ p.rank) : p = Phase.Closed := by
  cases p <;> simp [Phase.rank] at h ⊢

/-- One event never moves the phase backwards, a failed handshake, read or echo write
closes the session, and a closed session issues no operation of its cycle. -/
theorem step_phase {s s1 : session} {e : SessionEvent} {ops : List SessionOp}
    (hJ : s.cycle_inv) (h : s.step e = some (s1, ops)) :
    s.phase.rank ≤ s1.phase.rank
    ∧ (e.is_failure = true → s1.phase = Phase.Closed)
    ∧ (s.phase = Phase.Closed → ∀ op ∈ ops, op.is_cycle_op = false) := by
  obtain ⟨h1, _⟩ := hJ
  cases e with
  | accept_done ec =>
    by_cases h0 : s.accepts = 0
    · simp [session.step, h0] at h
    · have ha : s.accepts = 1 := by omega
      have hr : s.reads = 0 := by omega
      have hw : s.echo_writes = 0 := by omega
      by_cases hec : ec = 0
      · simp [session.step, h0, session.on_accept, hec, session.do_read] at h
        obtain ⟨rfl, rfl⟩ := h
        simp [session.phase, ha, hr, hw, Phase.rank, SessionEvent.is_failure, hec]
      · simp [session.step, h0, session.on_accept, hec, session.fail] at h
        obtain ⟨rfl, rfl⟩ := h
        simp [session.phase, ha, hr, hw, Phase.rank, SessionEvent.is_failure]
  | read_done ec bytes is_text =>
    by_cases h0 : s.reads = 0
    · simp [session.step, h0] at h
    · have ha : s.accepts = 0 := by omega
      have hr : s.reads = 1 := by omega
      have hw : s.echo_writes = 0 := by omega
      by_cases hec : ec = 0
      · simp [session.step, h0, session.on_read, hec] at h
        obtain ⟨rfl, rfl⟩ := h
        simp [session.phase, ha, hr, hw, Phase.rank, SessionEvent.is_failure, hec]
      · simp [session.step, h0, session.on_read, hec, session.fail] at h
        obtain ⟨rfl, rfl⟩ := h
        simp [session.phase, ha, hr, hw, Phase.rank, SessionEvent.is_failure]
  | write_done ec =>
    by_cases h0 : s.echo_writes = 0
    · simp [session.step, h0] at h
    · have ha : s.accepts = 0 := by omega
      have hr : s.reads = 0 := by omega
      have hw : s.echo_writes = 1 := by omega
      by_cases hec : ec = 0
      · simp [session.step, h0, session.on_write, hec, session.do_read] at h
        obtain ⟨rfl, rfl⟩ := h
        simp [session.phase, ha, hr, hw, Phase.rank, SessionEvent.is_failure, hec]
      · simp [session.step, h0, session.on_write, hec, session.fail] at h
        obtain ⟨rfl, rfl⟩ := h
        simp [session.phase, ha, hr, hw, Phase.rank, SessionEvent.is_failure]
  | send m =>
    simp [session.step, session.send] at h
    obtain ⟨rfl, rfl⟩ := h
    simp [session.phase, SessionEvent.is_failure, SessionOp.is_cycle_op]
  | send_done ec =>
    by_cases h0 : s.send_writes = 0
    · simp [session.step, h0] at h
    · by_cases hec : ec = 0
      · simp [session.step, h0, session.send_lambda, hec] at h
        obtain ⟨rfl, rfl⟩ := h
        simp [session.phase, SessionEvent.is_failure, SessionOp.is_cycle_op]
      · simp [session.step, h0, session.send_lambda, hec] at h
        obtain ⟨rfl, rfl⟩ := h
        simp [session.phase, SessionEvent.is_failure, SessionOp.is_cycle_op]

/-- The phase along a sequence of events. -/
theorem exec_phase {evs : List SessionEvent} {s s2 : session}
    {tr : List (List SessionOp)} (hJ : s.cycle_inv) (h : s.exec evs = some (s2, tr)) :
    s.phase.rank ≤ s2.phase.rank
    ∧ (s.phase = Phase.Closed → ∀ op ∈ tr.flatten, op.is_cycle_op = false) := by
  induction evs generalizing s tr with
  | nil =>
    simp [session.exec] at h
    obtain ⟨rfl, rfl⟩ := h
    simp
  | cons e es ih =>
    obtain ⟨s1, ops, tr1, hs, hx, rfl⟩ := exec_cons h
    obtain ⟨hrank, _, hops⟩ := step_phase hJ hs
    obtain ⟨irank, iops⟩ := ih (step_cycle_inv hJ hs).1 hx
    refine ⟨Nat.le_trans hrank irank, ?_⟩
    intro hc op hop
    have hc1 : s1.phase = Phase.Closed := rank_eq_two (by rw [hc] at hrank; exact hrank)
    rw [List.flatten_cons, List.mem_append] at hop
    rcases hop with hop | hop
    · exact hops hc op hop
    · exact iops hc1 op hop

/-! ## Lemmas on the event loop -/

/-- Executing the calls of `send` adds operations of sessions and nothing else. -/
theorem deliver_filter (p : Op → Bool) (hp : ∀ s o, p (Op.on_session s o) = false)
    (heap : List session) (ops : List Op) :
    (deliver heap ops).2.filter p = ops.filter p := by
  induction ops generalizing heap with
  | nil => simp [deliver]
  | cons op rest ih =>
    cases op with
    | send s m =>
      cases hs : heap[s]? with
      | none => simp only [deliver, hs, List.filter_cons, ih]
      | some st =>
        have hnil : List.filter p (List.map (Op.on_session s) (st.send m).2) = [] := by
          simp [List.filter_eq_nil_iff, hp]
        simp only [deliver, hs, List.filter_cons, List.filter_append, hnil, List.nil_append, ih]
    | _ => simp [deliver, List.filter_cons, ih]

theorem fetch_ops_no_timer (srv : WebSocketServer) (curl : CurlRun) :
    ∀ op ∈ srv.fetch_and_broadcast_stock_data curl, op.is_timer_op = false := by
  intro op hop
  cases curl with
  | init_failed =>
    simp [WebSocketServer.fetch_and_broadcast_stock_data] at hop
    rcases hop with rfl | rfl <;> rfl
  | handle chunks res =>
    simp [WebSocketServer.fetch_and_broadcast_stock_data] at hop
    rcases hop with rfl | rfl | rfl | rfl | ⟨a, _, rfl⟩ <;> rfl

theorem deliver_mem {op : Op} {ops : List Op} (heap : List session) (h : op ∈ ops) :
    op ∈ (deliver heap ops).2 := by
  induction ops generalizing heap with
  | nil => simp at h
  | cons o rest ih =>
    rw [List.mem_cons] at h
    cases o with
    | send s m =>
      cases hs : heap[s]? with
      | none =>
        simp only [deliver, hs, List.mem_cons]
        exact h.imp id (ih heap)
      | some st =>
        simp only [deliver, hs, List.mem_cons, List.mem_append]
        exact h.imp id (fun h2 => Or.inr (ih _ h2))
    | _ =>
      simp only [deliver, List.mem_cons]
      exact h.imp id (ih heap)

/-- The dispatch of a completed wait on the timer, when it is possible. -/
theorem step_wait_done (sys : System) (ec now : Nat) (curl : CurlRun) (elapsed : Nat)
    (h0 : sys.server.poll_timer_waits ≠ 0)
    (h1 : ¬ (ec = 0 ∧ now < sys.server.poll_timer_expiry)) :
    sys.step (Event.wait_done ec now curl elapsed)
      = some ({ sys with
          server := (WebSocketServer.on_wait
            { sys.server with poll_timer_waits := sys.server.poll_timer_waits - 1 }
            ec now curl elapsed).1,
          heap := (deliver sys.heap (WebSocketServer.on_wait
            { sys.server with poll_timer_waits := sys.server.poll_timer_waits - 1 }
            ec now curl elapsed).2).1 },
        (deliver sys.heap (WebSocketServer.on_wait
            { sys.server with poll_timer_waits := sys.server.poll_timer_waits - 1 }
            ec now curl elapsed).2).2) := by
  simp only [System.step, h0, h1, if_false]

theorem on_wait_sessions (srv : WebSocketServer) (ec now : Nat) (curl : CurlRun)
    (elapsed : Nat) : (srv.on_wait ec now curl elapsed).1.sessions_ = srv.sessions_ := by
  by_cases hec : ec = 0 <;> simp [WebSocketServer.on_wait, hec, WebSocketServer.start_polling]

/-- One dispatch of the event loop only appends to the registry. -/
theorem step_registry {sys sys1 : System} {e : Event} {ops : List Op}
    (h : sys.step e = some (sys1, ops)) :
    ∃ t, sys1.server.sessions_ = sys.server.sessions_ ++ t := by
  cases e with
  | accept_done ec =>
    by_cases h0 : sys.lis.accepts = 0
    · simp [System.step, h0] at h
    · simp only [System.step, h0, if_false, Option.some.injEq] at h
      by_cases hec : ec = 0
      · refine ⟨[sys.heap.length], ?_⟩
        have h2 := congrArg (fun r => r.1.server.sessions_) h
        simp only [listener.on_accept, hec, WebSocketServer.add_session] at h2
        simpa using h2.symm
      · refine ⟨[], ?_⟩
        have h2 := congrArg (fun r => r.1.server.sessions_) h
        simp [listener.on_accept, hec] at h2
        simpa using h2.symm
  | on_session s ev =>
    refine ⟨[], ?_⟩
    cases hs : sys.heap[s]? with
    | none => cases ev <;> simp [System.step, hs] at h
    | some st =>
      cases hx : st.step ev with
      | none => cases ev <;> simp [System.step, hs, hx] at h
      | some r =>
        cases ev <;> simp [System.step, hs, hx] at h <;> simp [← h.1]
  | wait_done ec now curl elapsed =>
    refine ⟨[], ?_⟩
    by_cases h0 : sys.server.poll_timer_waits = 0
    · simp [System.step, h0] at h
    · by_cases h1 : ec = 0 ∧ now < sys.server.poll_timer_expiry
      · simp [System.step, h0, h1] at h
      · simp only [System.step, h0, h1, if_false, Option.some.injEq, Prod.mk.injEq] at h
        rw [← h.1]
        simp [on_wait_sessions]

theorem sys_exec_cons {sys sys2 : System} {e : Event} {es : List Event} {tr : List Op}
    (h : sys.exec (e :: es) = some (sys2, tr)) :
    ∃ sys1 ops tr1, sys.step e = some (sys1, ops) ∧ sys1.exec es = some (sys2, tr1) := by
  simp only [System.exec] at h
  cases hs : sys.step e with
  | none => simp [hs] at h
  | some r =>
    obtain ⟨sys1, ops⟩ := r
    simp only [hs] at h
    cases hx : sys1.exec es with
    | none => simp [hx] at h
    | some r2 =>
      obtain ⟨sys3, tr1⟩ := r2
      simp only [hx, Option.some.injEq, Prod.mk.injEq] at h
      exact ⟨sys1, ops, tr1, rfl, by rw [← h.1]; exact hx⟩

theorem exec_registry {evs : List Event} {sys sys2 : System} {tr : List Op}
    (h : sys.exec evs = some (sys2, tr)) :
    ∃ t, sys2.server.sessions_ = sys.server.sessions_ ++ t := by
  induction evs generalizing sys tr with
  | nil =>
    simp [System.exec] at h
    exact ⟨[], by simp [← h.1]⟩
  | cons e es ih =>
    obtain ⟨sys1, ops, tr1, hs, hx⟩ := sys_exec_cons h
    obtain ⟨t1, ht1⟩ := step_registry hs
    obtain ⟨t2, ht2⟩ := ih hx
    exact ⟨t1 ++ t2, by rw [ht2, ht1, List.append_assoc]⟩

/-! ## Theorems -/

/-- C1 (the code departs from the claim): a transfer that fails still reaches the
fan-out.  With two registered sessions, a `curl_easy_perform` that returns
`CURLE_COULDNT_CONNECT` (7) with no body makes the tick call `send` with the empty
payload on both, and one that returns `CURLE_RECV_ERROR` (56) after one chunk makes
it call `send` with that partial body on both.  Only when `curl_easy_init` gives no
handle does the tick return before the fan-out. -/
theorem failed_transfer_is_still_broadcast :
    WebSocketServer.fetch_and_broadcast_stock_data { sessions_ := [0, 1] }
        CurlRun.init_failed
      = [Op.curl_easy_init, Op.log LogLine.curl_init_failed]
    ∧ WebSocketServer.fetch_and_broadcast_stock_data { sessions_ := [0, 1] }
        (CurlRun.handle [] 7)
      = [Op.curl_easy_init, Op.curl_easy_perform, Op.curl_easy_cleanup,
          Op.log (LogLine.number_of_sessions 2), Op.send 0 [], Op.send 1 []]
    ∧ WebSocketServer.fetch_and_broadcast_stock_data { sessions_ := [0, 1] }
        (CurlRun.handle [⟨[123, 34], 1, 2⟩] 56)
      = [Op.curl_easy_init, Op.curl_easy_perform, Op.curl_easy_cleanup,
          Op.log (LogLine.number_of_sessions 2), Op.send 0 [123, 34], Op.send 1 [123, 34]] := by
  refine ⟨?_, ?_, ?_⟩ <;> decide

/-- C2: when the transfer succeeds and every chunk handed to `WriteCallback` holds
exactly `size * nmemb` bytes, libcurl sees every chunk accepted and ends with
`CURLE_OK`, the buffer is the concatenation of the chunks in arrival order, and the
calls of `send` made by `fetch_and_broadcast_stock_data` are exactly one per registry
entry, in registry order, each with that buffer as its message. -/
theorem successful_fetch_sends_whole_body_to_each_session (srv : WebSocketServer)
    (chunks : List Chunk)
    (hwf : ∀ c ∈ chunks, c.contents.length = c.size * c.nmemb ∧ c.size * c.nmemb < SIZE_MOD) :
    curl_easy_perform 0 chunks [] = ((chunks.map Chunk.contents).flatten, 0)
    ∧ sends (srv.fetch_and_broadcast_stock_data (CurlRun.handle chunks 0))
      = srv.sessions_.map (fun s => (s, (chunks.map Chunk.contents).flatten)) := by
  have h := curl_easy_perform_accepts_all 0 chunks [] hwf
  simp only [List.nil_append] at h
  refine ⟨h, ?_⟩
  simp only [WebSocketServer.fetch_and_broadcast_stock_data, h, sends_append, sends_map_send]
  simp [sends]

/-- Witness of C2: three sessions, a body arriving in two chunks. -/
theorem successful_fetch_sends_whole_body_to_each_session_witness :
    curl_easy_perform 0 [⟨[123, 34], 1, 2⟩, ⟨[125], 1, 1⟩] [] = ([123, 34, 125], 0)
    ∧ sends (WebSocketServer.fetch_and_broadcast_stock_data { sessions_ := [0, 1, 2] }
        (CurlRun.handle [⟨[123, 34], 1, 2⟩, ⟨[125], 1, 1⟩] 0))
      = [(0, [123, 34, 125]), (1, [123, 34, 125]), (2, [123, 34, 125])] :=
  successful_fetch_sends_whole_body_to_each_session { sessions_ := [0, 1, 2] }
    [⟨[123, 34], 1, 2⟩, ⟨[125], 1, 1⟩] (by decide)

/-- C3: on a freshly started session, (1) for every list of frames, the run in which
the handshake succeeds and every frame is read and echoed without error is possible
and issues, for each frame in turn, one write carrying exactly that frame's bytes
and text flag, followed by one read on an empty buffer; and (2) in every run, with
calls of `send` interleaved at will, the writes of the echo cycle are, in order,
the frames delivered by the successful reads, the operations issued by the
completion of a read of a frame are exactly the one echo write of that frame, and
every read is issued on an empty buffer. -/
theorem echo_cycle_returns_each_frame :
    (∀ frames : List (List Byte × Bool), ∃ s2,
      session.started.exec (echo_events frames)
        = some (s2, [SessionOp.async_read []] :: frames.flatMap (fun f =>
            [[SessionOp.async_write f.1 f.2 WriteHandler.on_write],
              [SessionOp.async_read []]])))
    ∧ (∀ (evs : List SessionEvent) (s2 : session) (tr : List (List SessionOp)),
        session.started.exec evs = some (s2, tr) →
        tr.flatten.filterMap SessionOp.echo = evs.filterMap SessionEvent.frame
        ∧ (∀ (k : Nat) bytes is_text,
            evs[k]? = some (SessionEvent.read_done 0 bytes is_text) →
            tr[k]? = some [SessionOp.async_write bytes is_text WriteHandler.on_write])
        ∧ (∀ ops ∈ tr, ∀ buf, SessionOp.async_read buf ∈ ops → buf = [])) := by
  constructor
  · intro frames
    obtain ⟨s2, h2, _, _⟩ := exec_echo_frames frames
      { reads := 1 } rfl rfl
    refine ⟨s2, ?_⟩
    simp only [echo_events, session.exec, session.step, session.started, session.run,
      session.on_accept, session.do_read]
    simp only [Nat.zero_add, one_ne_zero, if_false, Nat.sub_self, ne_eq, not_true_eq_false]
    rw [h2]
  · intro evs s2 tr h
    obtain ⟨_, hrd, hecho, _, _, hk⟩ := exec_cycle_inv started_cycle_inv h
    exact ⟨hecho, hk, hrd⟩

/-- Witness of C3: a text frame "pi" and a binary frame are echoed in turn; in a second
run a call of `send` falls between the first frame's read and its echo's
completion, and the echo writes are still the two frames, in order. -/
theorem echo_cycle_returns_each_frame_witness :
    (∃ s2, session.started.exec (echo_events [([112, 105], true), ([0, 255], false)])
      = some (s2, [[SessionOp.async_read []],
          [SessionOp.async_write [112, 105] true WriteHandler.on_write],
          [SessionOp.async_read []],
          [SessionOp.async_write [0, 255] false WriteHandler.on_write],
          [SessionOp.async_read []]]))
    ∧ [SessionOp.async_read [],
        SessionOp.async_write [112, 105] true WriteHandler.on_write,
        SessionOp.async_write [123] true WriteHandler.send_lambda,
        SessionOp.async_read [],
        SessionOp.async_write [0, 255] false WriteHandler.on_write].filterMap SessionOp.echo
      = [([112, 105], true), ([0, 255], false)] :=
  ⟨echo_cycle_returns_each_frame.1 [([112, 105], true), ([0, 255], false)],
    (echo_cycle_returns_each_frame.2
      [SessionEvent.accept_done 0, SessionEvent.read_done 0 [112, 105] true,
        SessionEvent.send [123], SessionEvent.write_done 0,
        SessionEvent.read_done 0 [0, 255] false]
      { buffer_ := [0, 255], text := false, got_text := false, echo_writes := 1,
        send_writes := 1 }
      [[SessionOp.async_read []], [SessionOp.async_write [112, 105] true WriteHandler.on_write],
        [SessionOp.async_write [123] true WriteHandler.send_lambda],
        [SessionOp.async_read []],
        [SessionOp.async_write [0, 255] false WriteHandler.on_write]]
      (by decide)).1.trans (by decide)⟩

/-- C4, counterexample: after a successful handshake and the read of one frame the echo
write is outstanding; a call of `send` at that moment leaves two writes outstanding
on the session.  The whole program reaches that state: a client is accepted, its
handshake and its first read complete, and the next tick fetches a body. -/
theorem send_during_echo_write_leaves_two_writes :
    (session.started.exec [SessionEvent.accept_done 0, SessionEvent.read_done 0 [112] true,
        SessionEvent.send [123]]).map (fun r => (r.1.echo_writes, r.1.send_writes, r.2))
      = some (1, 1, [[SessionOp.async_read []],
          [SessionOp.async_write [112] true WriteHandler.on_write],
          [SessionOp.async_write [123] true WriteHandler.send_lambda]])
    ∧ ((main ⟨0, 0, 0⟩ 0).1.exec [Event.accept_done 0,
        Event.on_session 0 (SessionEvent.accept_done 0),
        Event.on_session 0 (SessionEvent.read_done 0 [112] true),
        Event.wait_done 0 (seconds 10) (CurlRun.handle [⟨[123], 1, 1⟩] 0) 0]).map
        (fun r => r.1.heap)
      = some [{ buffer_ := [112], echo_writes := 1, send_writes := 1 }] := by
  constructor <;> decide

/-- C4, amended: in every state a started session can reach, at most one of handshake,
read and echo write is outstanding (so at most one read and at most one echo write,
never both); writes issued by `send` are not serialized: the number of them
outstanding is the number of calls of `send` minus the number of their completions,
and a call of `send` in that state issues its write at once and adds one. -/
theorem session_outstanding_operations (evs : List SessionEvent) (s : session)
    (tr : List (List SessionOp)) (h : session.started.exec evs = some (s, tr)) :
    s.accepts + s.reads + s.echo_writes ≤ 1
    ∧ s.send_writes + evs.countP SessionEvent.is_send_done
        = (evs.filterMap SessionEvent.message).length
    ∧ (∀ m, ∃ s1, s.step (SessionEvent.send m)
          = some (s1, [SessionOp.async_write m s.text WriteHandler.send_lambda])
        ∧ s1.send_writes = s.send_writes + 1 ∧ s1.echo_writes = s.echo_writes
        ∧ s1.reads = s.reads) := by
  obtain ⟨hJ, _, _, _, hcnt, _⟩ := exec_cycle_inv started_cycle_inv h
  refine ⟨hJ.1, ?_, ?_⟩
  · simpa [session.started, session.run] using hcnt
  · intro m
    exact ⟨(s.send m).1, rfl, rfl, rfl, rfl⟩

/-- Witness of C4 amended: handshake, one frame read, two calls of `send`, one of them
completed. -/
theorem session_outstanding_operations_witness :
    (0 + 0 + 1 ≤ 1 ∧ 1 + 1 = 2)
    ∧ ∃ s1, session.step
        { buffer_ := [112], text := true, got_text := true, echo_writes := 1, send_writes := 1 }
        (SessionEvent.send [125])
      = some (s1, [SessionOp.async_write [125] true WriteHandler.send_lambda])
      ∧ s1.send_writes = 2 :=
  have h := session_outstanding_operations
    [SessionEvent.accept_done 0, SessionEvent.read_done 0 [112] true, SessionEvent.send [123],
      SessionEvent.send [124], SessionEvent.send_done 0]
    { buffer_ := [112], text := true, got_text := true, echo_writes := 1, send_writes := 1 }
    [[SessionOp.async_read []], [SessionOp.async_write [112] true WriteHandler.on_write],
      [SessionOp.async_write [123] true WriteHandler.send_lambda],
      [SessionOp.async_write [124] true WriteHandler.send_lambda],
      [SessionOp.log LogLine.message_sent]] (by decide)
  ⟨⟨h.1, by decide⟩, (h.2.2 [125]).imp (fun _ hs => ⟨hs.1, hs.2.1⟩)⟩

/-- C9, counterexample: a session whose handshake failed is closed, and a later call
of `send` still issues a write on it.  In the whole program: a client is accepted,
its handshake fails, and the next tick writes the fetched body on its session. -/
theorem send_writes_on_closed_session :
    session.started.step (SessionEvent.accept_done 1)
      = some ({}, [SessionOp.log (LogLine.fail What.accept 1)])
    ∧ session.phase {} = Phase.Closed
    ∧ session.step {} (SessionEvent.send [123])
      = some ({ send_writes := 1 },
          [SessionOp.async_write [123] true WriteHandler.send_lambda])
    ∧ ((main ⟨0, 0, 0⟩ 0).1.exec [Event.accept_done 0,
        Event.on_session 0 (SessionEvent.accept_done 1),
        Event.wait_done 0 (seconds 10) (CurlRun.handle [⟨[123], 1, 1⟩] 0) 0]).map
        (fun r => r.2)
      = some [Op.on_session 0 SessionOp.set_option_decorator,
          Op.on_session 0 SessionOp.async_accept, Op.acceptor_async_accept,
          Op.on_session 0 (SessionOp.log (LogLine.fail What.accept 1)),
          Op.curl_easy_init, Op.curl_easy_perform, Op.curl_easy_cleanup,
          Op.log (LogLine.number_of_sessions 1), Op.send 0 [123],
          Op.on_session 0 (SessionOp.async_write [123] true WriteHandler.send_lambda),
          Op.timer_expires_after (seconds 10), Op.timer_async_wait] := by
  refine ⟨?_, ?_, ?_, ?_⟩ <;> decide

/-- C9, amended: a started session's phase only moves forward along
`Handshaking → Open → Closed`; once its handshake, a read or an echo write has
completed with an error it is `Closed`; and from a `Closed` state every later state
is `Closed` and no handshake, read or echo write is issued again.  The writes issued
after that are exactly those of the later calls of `send`, one per call. -/
theorem closed_session_issues_only_send_writes (evs evs2 : List SessionEvent)
    (s s2 : session) (tr tr2 : List (List SessionOp))
    (h : session.started.exec evs = some (s, tr)) (h2 : s.exec evs2 = some (s2, tr2)) :
    s.phase.rank ≤ s2.phase.rank
    ∧ ((∃ pre e, evs = pre ++ [e] ∧ e.is_failure = true) → s.phase = Phase.Closed)
    ∧ (s.phase = Phase.Closed →
        s2.phase = Phase.Closed
        ∧ (∀ op ∈ tr2.flatten, op.is_cycle_op = false)
        ∧ tr2.flatten.filterMap SessionOp.broadcast = evs2.filterMap SessionEvent.message) := by
  have hJ := (exec_cycle_inv started_cycle_inv h).1
  obtain ⟨hrank, hops⟩ := exec_phase hJ h2
  refine ⟨hrank, ?_, ?_⟩
  · rintro ⟨pre, e, rfl, hf⟩
    obtain ⟨s1, tr1, ops, hx, hs⟩ := exec_append h
    exact (step_phase (exec_cycle_inv started_cycle_inv hx).1 hs).2.1 hf
  · intro hc
    exact ⟨rank_eq_two (by rw [hc] at hrank; exact hrank), hops hc,
      (exec_cycle_inv hJ h2).2.2.2.1⟩

/-- Witness of C9 amended: the first read fails, then `send` is called and its write
completes. -/
theorem closed_session_issues_only_send_writes_witness :
    session.phase {} = Phase.Closed
    ∧ (∀ op ∈ [SessionOp.async_write [123] true WriteHandler.send_lambda,
          SessionOp.log LogLine.message_sent], op.is_cycle_op = false)
    ∧ [[123]] = [SessionEvent.send [123], SessionEvent.send_done 0].filterMap
        SessionEvent.message :=
  have h := closed_session_issues_only_send_writes
    [SessionEvent.accept_done 0, SessionEvent.read_done 104 [] true]
    [SessionEvent.send [123], SessionEvent.send_done 0] {} {}
    [[SessionOp.async_read []], [SessionOp.log (LogLine.fail What.read 104)]]
    [[SessionOp.async_write [123] true WriteHandler.send_lambda],
      [SessionOp.log LogLine.message_sent]] (by decide) (by decide)
  have hc := h.2.1 ⟨[SessionEvent.accept_done 0], SessionEvent.read_done 104 [] true, rfl, rfl⟩
  ⟨hc, (h.2.2 hc).2.1, (h.2.2 hc).2.2⟩

/-- C5, counterexample: when `acceptor_.bind` fails (here with 98, address in use),
`main` still issues an accept and enters the event loop. -/
theorem bind_failure_still_accepts_and_runs :
    (main ⟨0, 98, 0⟩ 0).2
      = [Op.timer_expires_after (seconds 10), Op.timer_async_wait, Op.acceptor_open,
          Op.acceptor_bind, Op.log (LogLine.fail What.bind 98), Op.acceptor_async_accept,
          Op.ioc_run]
    ∧ (main ⟨0, 98, 0⟩ 0).1.lis.accepts = 1 := by
  decide

/-- C5, amended: when opening, binding or listening fails at startup, the constructor
of the listener logs the first failing step and skips the steps after it, so the
acceptor is not listening; the failure is not fatal: `main` goes on, `run()` issues
one accept and `ioc.run()` is entered. -/
theorem startup_failure_is_logged_and_not_fatal (env : StartupEnv) (now : Nat)
    (hfail : env.open_ec ≠ 0 ∨ env.bind_ec ≠ 0 ∨ env.listen_ec ≠ 0) :
    (main env now).2
      = [Op.timer_expires_after (seconds 10), Op.timer_async_wait] ++ (listener.new env).2
        ++ [Op.acceptor_async_accept, Op.ioc_run]
    ∧ (main env now).1.lis.accepts = 1
    ∧ (main env now).1.lis.is_listening = false
    ∧ (env.open_ec ≠ 0 →
        (listener.new env).2 = [Op.acceptor_open, Op.log (LogLine.fail What.open_ env.open_ec)])
    ∧ (env.open_ec = 0 → env.bind_ec ≠ 0 →
        (listener.new env).2
          = [Op.acceptor_open, Op.acceptor_bind, Op.log (LogLine.fail What.bind env.bind_ec)])
    ∧ (env.open_ec = 0 → env.bind_ec = 0 →
        (listener.new env).2
          = [Op.acceptor_open, Op.acceptor_bind, Op.acceptor_listen,
              Op.log (LogLine.fail What.listen env.listen_ec)]) := by
  refine ⟨?_, ?_, ?_, ?_, ?_, ?_⟩
  · simp [main, WebSocketServer.new, WebSocketServer.start_polling, listener.run,
      listener.do_accept]
  · simp only [main, listener.run, listener.do_accept, listener.new]
    split_ifs <;> rfl
  · simp only [main, listener.run, listener.do_accept, listener.new]
    split_ifs with h1 h2 h3
    · rfl
    · rfl
    · rfl
    · rcases hfail with h | h | h
      · exact absurd h h1
      · exact absurd h h2
      · exact absurd h h3
  · intro h1
    simp [listener.new, h1]
  · intro h1 h2
    simp [listener.new, h1, h2]
  · intro h1 h2
    have h3 : env.listen_ec ≠ 0 := by
      rcases hfail with h | h | h
      · exact absurd h1 h
      · exact absurd h2 h
      · exact h
    simp [listener.new, h1, h2, h3]

/-- Witness of C5 amended: `listen` fails with 98. -/
theorem startup_failure_is_logged_and_not_fatal_witness :
    (main ⟨0, 0, 98⟩ 5).2
      = [Op.timer_expires_after (seconds 10), Op.timer_async_wait]
        ++ (listener.new ⟨0, 0, 98⟩).2 ++ [Op.acceptor_async_accept, Op.ioc_run]
    ∧ (main ⟨0, 0, 98⟩ 5).1.lis.accepts = 1
    ∧ (main ⟨0, 0, 98⟩ 5).1.lis.is_listening = false :=
  have h := startup_failure_is_logged_and_not_fatal ⟨0, 0, 98⟩ 5 (by decide)
  ⟨h.1, h.2.1, h.2.2.1⟩

/-- C6: `listener::on_accept`.  If the accept failed, the registry and the sessions are
unchanged and no session operation is issued; if it succeeded, one pointer to a new
session (no session existed behind it before) is appended at the end of the
registry, that session is a constructed session on which `run()` was called, and the
operations of `run()` are issued on it.  In both cases the last operation is one
`async_accept` on the acceptor, the only one issued. -/
theorem listener_on_accept_registers_and_accepts_again (sys : System) (ec : Nat) :
    (ec ≠ 0 →
      (listener.on_accept sys ec).1.server.sessions_ = sys.server.sessions_
      ∧ (listener.on_accept sys ec).1.heap = sys.heap
      ∧ (listener.on_accept sys ec).2
          = [Op.log (LogLine.fail What.accept ec), Op.acceptor_async_accept])
    ∧ (ec = 0 →
      (listener.on_accept sys ec).1.server.sessions_
          = sys.server.sessions_ ++ [sys.heap.length]
      ∧ sys.heap[sys.heap.length]? = none
      ∧ (listener.on_accept sys ec).1.heap = sys.heap ++ [session.started]
      ∧ (listener.on_accept sys ec).2
          = [Op.on_session sys.heap.length SessionOp.set_option_decorator,
              Op.on_session sys.heap.length SessionOp.async_accept,
              Op.acceptor_async_accept])
    ∧ (listener.on_accept sys ec).1.lis.accepts = sys.lis.accepts + 1
    ∧ (listener.on_accept sys ec).1.server.poll_timer_waits = sys.server.poll_timer_waits := by
  by_cases hec : ec = 0
  · simp [listener.on_accept, hec, listener.do_accept, WebSocketServer.add_session,
      session.started, session.run]
  · simp [listener.on_accept, hec, listener.do_accept]

/-- C8, counterexample: in a tick with one registered session and a successful fetch,
the fetch and the call of `send` come before the timer is re-armed. -/
theorem tick_fetches_before_rearming :
    (WebSocketServer.on_wait { sessions_ := [0], poll_timer_expiry := seconds 10 } 0
        (seconds 10) (CurlRun.handle [⟨[123], 1, 1⟩] 0) (seconds 3)).2
      = [Op.curl_easy_init, Op.curl_easy_perform, Op.curl_easy_cleanup,
          Op.log (LogLine.number_of_sessions 1), Op.send 0 [123],
          Op.timer_expires_after (seconds 10), Op.timer_async_wait] := by
  decide

/-- C8, amended: in every tick whose wait completed without error, the timer is re-armed
last: the operations of the tick are those of `fetch_and_broadcast_stock_data` (the
fetch, then the calls of `send`), none of which is on the timer, followed by
`expires_after(10 s)` and `async_wait`. -/
theorem tick_rearms_after_fetch_and_sends (srv : WebSocketServer) (now elapsed : Nat)
    (curl : CurlRun) :
    (srv.on_wait 0 now curl elapsed).2
      = srv.fetch_and_broadcast_stock_data curl
        ++ [Op.timer_expires_after (seconds 10), Op.timer_async_wait]
    ∧ (∀ op ∈ srv.fetch_and_broadcast_stock_data curl, op.is_timer_op = false) := by
  refine ⟨?_, fetch_ops_no_timer srv curl⟩
  simp [WebSocketServer.on_wait, WebSocketServer.start_polling]

/-- C7, counterexample: a tick fires at 10 s and its fetch takes 3 s; the timer is
re-armed to expire at 23 s, not at 20 s, and a wait cannot complete without error
at 20 s, one interval after the tick. -/
theorem next_tick_waits_for_the_fetch :
    ((main ⟨0, 0, 0⟩ 0).1.step
        (Event.wait_done 0 (seconds 10) (CurlRun.handle [] 0) (seconds 3))).map
        (fun r => r.1.server.poll_timer_expiry) = some (seconds 23)
    ∧ ((main ⟨0, 0, 0⟩ 0).1.step
        (Event.wait_done 0 (seconds 10) (CurlRun.handle [] 0) (seconds 3))).bind
        (fun r => r.1.step (Event.wait_done 0 (seconds 20) (CurlRun.handle [] 0) 0)) = none := by
  decide

/-- C7, amended: a tick whose wait completes without error, whatever libcurl does in it
(no handle, a failed transfer, a successful one), re-arms the timer exactly once:
its operations on the timer are one `expires_after(10 s)` and one `async_wait`, one
wait is outstanding afterwards, and the new expiry is one interval after the moment
`fetch_and_broadcast_stock_data` returned, that is the time of the tick plus the time
the fetch took plus 10 s; the next tick can fire from that time on and not before. -/
theorem poll_tick_rearms_once_after_fetch (sys : System) (now elapsed : Nat)
    (curl : CurlRun) (hw : sys.server.poll_timer_waits = 1)
    (hexp : sys.server.poll_timer_expiry ≤ now) :
    ∃ sys1 ops, sys.step (Event.wait_done 0 now curl elapsed) = some (sys1, ops)
      ∧ ops.filter Op.is_timer_op = [Op.timer_expires_after (seconds 10), Op.timer_async_wait]
      ∧ sys1.server.poll_timer_waits = 1
      ∧ sys1.server.poll_timer_expiry = now + elapsed + seconds 10
      ∧ (∀ now1 curl1 elapsed1,
          (sys1.step (Event.wait_done 0 now1 curl1 elapsed1)).isSome = true
            ↔ now + elapsed + seconds 10 ≤ now1) := by
  have h0 : sys.server.poll_timer_waits ≠ 0 := by omega
  have h1 : ¬ (0 = 0 ∧ now < sys.server.poll_timer_expiry) := by omega
  refine ⟨_, _, step_wait_done sys 0 now curl elapsed h0 h1, ?_, ?_, ?_, ?_⟩
  · rw [deliver_filter Op.is_timer_op (fun _ _ => rfl)]
    have hnil : (WebSocketServer.fetch_and_broadcast_stock_data
        { sys.server with poll_timer_waits := sys.server.poll_timer_waits - 1 } curl).filter
        Op.is_timer_op = [] := by
      rw [List.filter_eq_nil_iff]
      intro op hop
      simp [fetch_ops_no_timer _ curl op hop]
    simp only [WebSocketServer.on_wait, if_true, WebSocketServer.start_polling,
      List.filter_append, hnil, List.nil_append]
    rfl
  · simp [WebSocketServer.on_wait, WebSocketServer.start_polling, hw]
  · simp [WebSocketServer.on_wait, WebSocketServer.start_polling]
  · intro now1 curl1 elapsed1
    simp [System.step, WebSocketServer.on_wait, WebSocketServer.start_polling, hw]

/-- Witness of C7 amended: the first tick after startup, with a transfer that fails. -/
theorem poll_tick_rearms_once_after_fetch_witness :
    ∃ sys1 ops, (main ⟨0, 0, 0⟩ 0).1.step
        (Event.wait_done 0 (seconds 10) (CurlRun.handle [] 7) (seconds 3)) = some (sys1, ops)
      ∧ ops.filter Op.is_timer_op = [Op.timer_expires_after (seconds 10), Op.timer_async_wait]
      ∧ sys1.server.poll_timer_waits = 1
      ∧ sys1.server.poll_timer_expiry = seconds 10 + seconds 3 + seconds 10 :=
  (poll_tick_rearms_once_after_fetch (main ⟨0, 0, 0⟩ 0).1 (seconds 10) (seconds 3)
    (CurlRun.handle [] 7) (by decide) (by decide)).imp
    (fun _ h => h.imp (fun _ hs => ⟨hs.1, hs.2.1, hs.2.2.1, hs.2.2.2.1⟩))

/-- C10: along every sequence of dispatches of the event loop (accepts, completions and
failures of operations of any session, completions of writes issued by `send`, ticks)
the registry before is a prefix of the registry after; and every session registered
before is still called by the fan-out of any later tick, whatever happened to it in
between. -/
theorem registry_only_grows (sys sys2 : System) (evs : List Event) (tr : List Op)
    (h : sys.exec evs = some (sys2, tr)) :
    sys.server.sessions_ <+: sys2.server.sessions_
    ∧ (∀ s ∈ sys.server.sessions_, ∀ now chunks res elapsed sys3 ops,
        sys2.step (Event.wait_done 0 now (CurlRun.handle chunks res) elapsed) = some (sys3, ops) →
        Op.send s (curl_easy_perform res chunks []).1 ∈ ops) := by
  obtain ⟨t, ht⟩ := exec_registry h
  refine ⟨⟨t, ht.symm⟩, ?_⟩
  intro s hs now chunks res elapsed sys3 ops hstep
  by_cases h0 : sys2.server.poll_timer_waits = 0
  · simp [System.step, h0] at hstep
  · by_cases h1 : 0 = 0 ∧ now < sys2.server.poll_timer_expiry
    · simp [System.step, h0, h1] at hstep
    · rw [step_wait_done sys2 0 now _ elapsed h0 h1] at hstep
      simp only [Option.some.injEq, Prod.mk.injEq] at hstep
      rw [← hstep.2]
      apply deliver_mem
      have hs2 : s ∈ sys2.server.sessions_ := by rw [ht]; exact List.mem_append_left t hs
      simp only [WebSocketServer.on_wait, if_true,
        WebSocketServer.fetch_and_broadcast_stock_data]
      simp [hs2]

/-- Witness of C10: session 0 is closed (its handshake failed); a tick sends to it, the
write fails, a second client is accepted.  Session 0 is still first in the registry
and the next tick calls `send` on it again. -/
theorem registry_only_grows_witness :
    ([0] : List Nat) <+: [0, 1]
    ∧ (∀ now chunks res elapsed sys3 ops,
        System.step
          { server := { sessions_ := [0, 1], poll_timer_expiry := seconds 20,
                        poll_timer_waits := 1 },
            lis := { is_open := true, is_bound := true, is_listening := true, accepts := 1 },
            heap := [{}, session.started] }
          (Event.wait_done 0 now (CurlRun.handle chunks res) elapsed) = some (sys3, ops) →
        Op.send 0 (curl_easy_perform res chunks []).1 ∈ ops) :=
  have h := registry_only_grows
    { server := { sessions_ := [0], poll_timer_expiry := seconds 10, poll_timer_waits := 1 },
      lis := { is_open := true, is_bound := true, is_listening := true, accepts := 1 },
      heap := [{}] }
    { server := { sessions_ := [0, 1], poll_timer_expiry := seconds 20,
                  poll_timer_waits := 1 },
      lis := { is_open := true, is_bound := true, is_listening := true, accepts := 1 },
      heap := [{}, session.started] }
    [Event.wait_done 0 (seconds 10) (CurlRun.handle [⟨[123], 1, 1⟩] 0) 0,
      Event.on_session 0 (SessionEvent.send_done 32), Event.accept_done 0]
    [Op.curl_easy_init, Op.curl_easy_perform, Op.curl_easy_cleanup,
      Op.log (LogLine.number_of_sessions 1), Op.send 0 [123],
      Op.on_session 0 (SessionOp.async_write [123] true WriteHandler.send_lambda),
      Op.timer_expires_after (seconds 10), Op.timer_async_wait,
      Op.on_session 0 (SessionOp.log (LogLine.error_sending 32)),
      Op.on_session 1 SessionOp.set_option_decorator,
      Op.on_session 1 SessionOp.async_accept, Op.acceptor_async_accept]
    (by decide)
  ⟨h.1, h.2 0 (List.mem_singleton.2 rfl)⟩

end StockServer
